import Mathlib

/-!
Verification of the DICOMautomaton core: the threshold operation
(`ThresholdImages.cc`), the per-image parallel dispatch engine, the
selection language, and the voxel-wise spatial comparator
(`ComparePixels.cc` together with its `Compare_Images` compute functor).
C++ `float`/`double` samples are embedded as exact rationals or reals;
machine integers as `Nat`/`Int`.
-/

/-- A 2D planar image: `rows × columns × channels` samples stored row-major
with the channel index varying fastest, matching how `ThresholdImages.cc`
addresses `planar_image` via `value(r, c, Channel)`.  Pixel values are
embedded as `ℚ`. -/
structure PlanarImage where
  rows : Nat
  columns : Nat
  channels : Nat
  data : List ℚ
deriving DecidableEq

/-- The per-pixel update of `ThresholdImages.cc` (lines 197-211): the pixel
value `v` is read once; if `¬(cl ≤ v)` the pixel is overwritten with `lo`,
then if `¬(v ≤ cu)` it is overwritten with `hi` (written second, so `hi`
wins when both oracles fail). -/
def thresholdPixel (cl cu lo hi v : ℚ) : ℚ :=
  let afterLower := if ¬ (cl ≤ v) then lo else v
  if ¬ (v ≤ cu) then hi else afterLower

/-- The per-image task body of `ThresholdImages.cc`: every sample of the
requested channel (flat index `i` has channel `i % channels`) is passed
through `thresholdPixel`; samples of other channels are untouched.
Window/description metadata updates are not modelled (they do not affect
pixel values). -/
def thresholdImage (cl cu lo hi : ℚ) (ch : Int) (img : PlanarImage) : PlanarImage :=
  { img with
    data := img.data.enum.map fun p =>
      if ((p.1 % img.channels : Nat) : Int) = ch then thresholdPixel cl cu lo hi p.2 else p.2 }

/-- The validity check of `ThresholdImages.cc` line 150:
`(animg.rows < 1) || (animg.columns < 1) || (Channel >= animg.channels)`. -/
def badImage (ch : Int) (img : PlanarImage) : Prop :=
  img.rows < 1 ∨ img.columns < 1 ∨ (img.channels : Int) ≤ ch

instance (ch : Int) (img : PlanarImage) : Decidable (badImage ch img) := by
  unfold badImage; infer_instance

/-- The error message thrown by `ThresholdImages.cc` line 151. -/
def thresholdErrMsg : String := "Image or channel is empty -- cannot contour via thresholds."

/-- The submission loop of `ThresholdImages` (lines 149-224): images are
validated in order; a failing validation throws, leaving that image and all
later ones untouched, while the tasks already submitted for earlier images
have run to completion (the pool joins when the exception unwinds), so the
earlier images keep their mutations.  Returns the final image list together
with the error, if any. -/
def ThresholdImages (cl cu lo hi : ℚ) (ch : Int) : List PlanarImage → List PlanarImage × Option String
  | [] => ([], Option.none)
  | img :: rest =>
    if badImage ch img then
      (img :: rest, Option.some thresholdErrMsg)
    else
      let r := ThresholdImages cl cu lo hi ch rest
      (thresholdImage cl cu lo hi ch img :: r.1, r.2)

/-- ComputeEngine `Process` scheduling model: the pool executes one task per
image; a task reads its own image from the current state and writes the
transformed image back.  `order` is the order in which the worker pool
happens to complete the (independent) tasks; a single worker corresponds to
`order = List.range imgs.length`, `N` workers to an arbitrary permutation. -/
def runSchedule (fn : PlanarImage → PlanarImage) (imgs : List PlanarImage)
    (order : List Nat) : List PlanarImage :=
  order.foldl (fun st i => st.set i (fn (st.getD i ⟨0, 0, 0, []⟩))) imgs

/-- C4: thresholding the 1×4 single-channel image `[-5, 0, 5, 10]` with
`Lower = 0`, `Upper = 5`, `Low = -1`, `High = 99` yields `[-1, 0, 5, 99]`;
pixels inside the inclusive bounds are unchanged, pixels below the lower
bound become `Low`, pixels above the upper bound become `High`. -/
theorem C4_threshold_scenario :
    thresholdImage 0 5 (-1) 99 0 ⟨1, 4, 1, [-5, 0, 5, 10]⟩ = ⟨1, 4, 1, [-1, 0, 5, 99]⟩
    ∧ ∀ v : ℚ,
        (0 ≤ v → v ≤ 5 → thresholdPixel 0 5 (-1) 99 v = v)
        ∧ (v < 0 → thresholdPixel 0 5 (-1) 99 v = -1)
        ∧ (5 < v → thresholdPixel 0 5 (-1) 99 v = 99) := by
  refine ⟨by decide, fun v => ⟨fun h1 h2 => ?_, fun h => ?_, fun h => ?_⟩⟩
  · simp [thresholdPixel, h1, h2]
  · have h2 : v ≤ 5 := by linarith
    have h3 : ¬ (0 ≤ v) := by linarith
    simp [thresholdPixel, h2, h3]
  · have h2 : ¬ (v ≤ 5) := by linarith
    simp [thresholdPixel, h2]

/-- Witness for C4 at concrete pixel values 3, -7 and 8. -/
theorem C4_threshold_scenario_witness :
    ((0:ℚ) ≤ 3 ∧ (3:ℚ) ≤ 5 ∧ thresholdPixel 0 5 (-1) 99 3 = 3)
    ∧ ((-7:ℚ) < 0 ∧ thresholdPixel 0 5 (-1) 99 (-7) = -1)
    ∧ ((5:ℚ) < 8 ∧ thresholdPixel 0 5 (-1) 99 8 = 99) :=
  ⟨⟨by norm_num, by norm_num, (C4_threshold_scenario.2 3).1 (by norm_num) (by norm_num)⟩,
   ⟨by norm_num, (C4_threshold_scenario.2 (-7)).2.1 (by norm_num)⟩,
   ⟨by norm_num, (C4_threshold_scenario.2 8).2.2 (by norm_num)⟩⟩

/-- Running the submission loop over a collection with no invalid image
processes every image and reports no error. -/
theorem thresholdImages_all_ok (cl cu lo hi : ℚ) (ch : Int) :
    ∀ imgs : List PlanarImage, (∀ x ∈ imgs, ¬ badImage ch x) →
      ThresholdImages cl cu lo hi ch imgs
        = (imgs.map (thresholdImage cl cu lo hi ch), Option.none)
  | [], _ => rfl
  | img :: rest, h => by
    have himg : ¬ badImage ch img := h img (List.mem_cons_self img rest)
    have hrest := thresholdImages_all_ok cl cu lo hi ch rest
      (fun x hx => h x (List.mem_cons_of_mem img hx))
    simp [ThresholdImages, himg, hrest]

/-- Running the submission loop over a collection whose first invalid image
is `b` processes exactly the images before `b` and stops with the error,
leaving `b` and everything after it untouched. -/
theorem thresholdImages_first_bad (cl cu lo hi : ℚ) (ch : Int) (b : PlanarImage)
    (post : List PlanarImage) (hb : badImage ch b) :
    ∀ pre : List PlanarImage, (∀ x ∈ pre, ¬ badImage ch x) →
      ThresholdImages cl cu lo hi ch (pre ++ b :: post)
        = (pre.map (thresholdImage cl cu lo hi ch) ++ b :: post, Option.some thresholdErrMsg)
  | [], _ => by simp [ThresholdImages, hb]
  | img :: pre, h => by
    have himg : ¬ badImage ch img := h img (List.mem_cons_self img pre)
    have hpre := thresholdImages_first_bad cl cu lo hi ch b post hb pre
      (fun x hx => h x (List.mem_cons_of_mem img hx))
    simp [ThresholdImages, himg, hpre]

/-- A list containing an element satisfying a predicate splits at the first
such element. -/
theorem exists_first_sat {α : Type} (p : α → Prop) [DecidablePred p] :
    ∀ l : List α, (∃ x ∈ l, p x) →
      ∃ pre b post, l = pre ++ b :: post ∧ (∀ y ∈ pre, ¬ p y) ∧ p b
  | [], h => by simp at h
  | a :: l, h => by
    by_cases ha : p a
    · exact ⟨[], a, l, rfl, by simp, ha⟩
    · obtain ⟨x, hx, hpx⟩ := h
      rcases List.mem_cons.mp hx with hxa | hxl
      · exact absurd (hxa ▸ hpx) ha
      · obtain ⟨pre, b, post, hl, hpre, hpb⟩ := exists_first_sat p l ⟨x, hxl, hpx⟩
        exact ⟨a :: pre, b, post, by simp [hl], by
          intro y hy
          rcases List.mem_cons.mp hy with hya | hyp
          · exact hya ▸ ha
          · exact hpre y hyp, hpb⟩

/-- C9: `ThresholdImages` raises an error for a collection iff some image in
it has fewer than 1 row, fewer than 1 column, or a channel count not
exceeding the requested zero-based channel index; the image triggering the
error is left unprocessed (it reappears unchanged in the output, as do all
later images, while all earlier images are processed). -/
theorem C9_threshold_error_iff (cl cu lo hi : ℚ) (ch : Int) (imgs : List PlanarImage) :
    ((ThresholdImages cl cu lo hi ch imgs).2.isSome
      ↔ ∃ img ∈ imgs, img.rows < 1 ∨ img.columns < 1 ∨ (img.channels : Int) ≤ ch)
    ∧ ∀ pre b post, imgs = pre ++ b :: post →
        (∀ x ∈ pre, ¬ badImage ch x) → badImage ch b →
        (ThresholdImages cl cu lo hi ch imgs).1
          = pre.map (thresholdImage cl cu lo hi ch) ++ b :: post := by
  constructor
  · constructor
    · intro hsome
      by_contra hno
      push_neg at hno
      have hok : ∀ x ∈ imgs, ¬ badImage ch x := by
        intro x hx
        have h := hno x hx
        simp only [badImage]
        push_neg
        omega
      rw [thresholdImages_all_ok cl cu lo hi ch imgs hok] at hsome
      simp at hsome
    · intro hex
      have hex' : ∃ x ∈ imgs, badImage ch x := by
        obtain ⟨img, hmem, hbad⟩ := hex
        exact ⟨img, hmem, hbad⟩
      obtain ⟨pre, b, post, hl, hpre, hpb⟩ := exists_first_sat (badImage ch) imgs hex'
      rw [hl, thresholdImages_first_bad cl cu lo hi ch b post hpb pre hpre]
      simp
  · intro pre b post hl hpre hb
    rw [hl, thresholdImages_first_bad cl cu lo hi ch b post hb pre hpre]

/-- Witness for C9: a 1×1 image with zero channels triggers the error and is
returned unprocessed. -/
theorem C9_threshold_error_iff_witness :
    (ThresholdImages 0 5 (-1) 99 0 [⟨1, 1, 0, []⟩]).1
      = [].map (thresholdImage 0 5 (-1) 99 0) ++ (⟨1, 1, 0, []⟩ : PlanarImage) :: [] :=
  (C9_threshold_error_iff 0 5 (-1) 99 0 [⟨1, 1, 0, []⟩]).2 [] ⟨1, 1, 0, []⟩ [] rfl
    (by simp) (by decide)

/-- C8: per-image mutations committed before a sibling task fails are kept.
For the collection `[⟨1,1,1,[-5]⟩, ⟨1,1,0,[]⟩]` (the second image has an
out-of-range channel) the operation reports an error, yet the first image
has already been thresholded from `[-5]` to `[-1]`. -/
theorem C8_partial_mutation_retained :
    ThresholdImages 0 5 (-1) 99 0 [⟨1, 1, 1, [-5]⟩, ⟨1, 1, 0, []⟩]
      = ([⟨1, 1, 1, [-1]⟩, ⟨1, 1, 0, []⟩], Option.some thresholdErrMsg)
    ∧ (⟨1, 1, 1, [-1]⟩ : PlanarImage) ≠ ⟨1, 1, 1, [-5]⟩ := by
  constructor
  · decide
  · decide

/-- After running the per-image tasks of a schedule, position `j` holds the
transformed image when task `j` was scheduled and is untouched otherwise
(each task reads its own image from the current state, so distinct task
indices guarantee it reads the original). -/
theorem runSchedule_getElem (fn : PlanarImage → PlanarImage) (imgs : List PlanarImage) :
    ∀ (order : List Nat) (st : List PlanarImage),
      order.Nodup → (∀ k ∈ order, st[k]? = imgs[k]?) →
      ∀ j, (order.foldl (fun s i => s.set i (fn (s.getD i ⟨0, 0, 0, []⟩))) st)[j]?
            = if j ∈ order then (imgs[j]?).map fn else st[j]?
  | [], st, _, _, j => by simp
  | i :: tl, st, hnd, hagree, j => by
    have hni : i ∉ tl := (List.nodup_cons.mp hnd).1
    have hnd' : tl.Nodup := (List.nodup_cons.mp hnd).2
    have hagree1 : ∀ k ∈ tl, (st.set i (fn (st.getD i ⟨0, 0, 0, []⟩)))[k]? = imgs[k]? := by
      intro k hk
      have hki : i ≠ k := fun h => hni (h ▸ hk)
      rw [List.getElem?_set_ne hki]
      exact hagree k (List.mem_cons_of_mem i hk)
    have IH := runSchedule_getElem fn imgs tl (st.set i (fn (st.getD i ⟨0, 0, 0, []⟩)))
      hnd' hagree1 j
    simp only [List.foldl_cons]
    rw [IH]
    by_cases hjt : j ∈ tl
    · simp [hjt]
    · by_cases hji : j = i
      · subst hji
        rw [if_neg hjt, if_pos (List.mem_cons_self j tl)]
        by_cases hlt : j < st.length
        · rw [List.getElem?_set_self hlt]
          have hj := hagree j (List.mem_cons_self j tl)
          rw [List.getD_eq_getElem?_getD, hj, ← hj, List.getElem?_eq_getElem hlt]
          simp
        · have hle : st.length ≤ j := Nat.le_of_not_lt hlt
          rw [List.set_eq_of_length_le hle]
          have h1 : st[j]? = Option.none := List.getElem?_eq_none hle
          have h2 : imgs[j]? = Option.none := by rw [← hagree j (List.mem_cons_self j tl), h1]
          rw [h1, h2]
          simp
      · have hjc : j ∉ i :: tl := by simp [hji, hjt]
        rw [if_neg hjt, if_neg hjc, List.getElem?_set_ne (fun h => hji h.symm)]

/-- C5: for a deterministic per-image function the result of a `Process`
invocation is independent of the order in which the worker pool completes
the per-image tasks (hence of the pool size): any completion order that is
a permutation of the task list produces exactly `imgs.map fn`.  In
particular the per-image threshold task of `ThresholdImages` is
schedule-independent. -/
theorem C5_process_schedule_independent (fn : PlanarImage → PlanarImage)
    (cl cu lo hi : ℚ) (ch : Int) (imgs : List PlanarImage) (order : List Nat)
    (h : order.Perm (List.range imgs.length)) :
    runSchedule fn imgs order = imgs.map fn
    ∧ runSchedule (thresholdImage cl cu lo hi ch) imgs order
        = imgs.map (thresholdImage cl cu lo hi ch) := by
  have main : ∀ g : PlanarImage → PlanarImage, runSchedule g imgs order = imgs.map g := by
    intro g
    have hnd : order.Nodup := h.nodup_iff.mpr (List.nodup_range imgs.length)
    apply List.ext_getElem?
    intro j
    rw [runSchedule, runSchedule_getElem g imgs order imgs hnd (fun k _ => rfl) j]
    by_cases hj : j < imgs.length
    · rw [if_pos (by rw [h.mem_iff, List.mem_range]; exact hj), List.getElem?_map]
    · have hle : imgs.length ≤ j := Nat.le_of_not_lt hj
      rw [if_neg (by rw [h.mem_iff, List.mem_range]; omega), List.getElem?_map,
        List.getElem?_eq_none hle]
      rfl
  exact ⟨main fn, main (thresholdImage cl cu lo hi ch)⟩

/-- Witness for C5: two images processed in the reversed completion order
`[1, 0]` give the same result as the serial order. -/
theorem C5_process_schedule_independent_witness :
    runSchedule (thresholdImage 0 5 (-1) 99 0) [⟨1, 1, 1, [-5]⟩, ⟨1, 1, 1, [10]⟩] [1, 0]
      = ([⟨1, 1, 1, [-5]⟩, ⟨1, 1, 1, [10]⟩] : List PlanarImage).map (thresholdImage 0 5 (-1) 99 0) :=
  (C5_process_schedule_independent (thresholdImage 0 5 (-1) 99 0) 0 5 (-1) 99 0
    [⟨1, 1, 1, [-5]⟩, ⟨1, 1, 1, [10]⟩] [1, 0] (by decide)).2

/-- An addressable entity: its ordered metadata map (string keys to string
values), the part of the data model the selection language inspects. -/
structure Entity where
  metadata : List (String × String)

/-- Selection failures of the selector. -/
inductive SelErr where
  | syntaxError
  | emptySelection
deriving DecidableEq

/-- Modelled from the spec: the recognized selection expression forms of the
selector (`Regex_Selectors`, not present under `src/`): `all`, `first`,
`last`, `none`, a zero-based index, a half-open numeric range, and a list of
`key=pattern` metadata predicates combined with implicit AND.  A compiled
case-insensitive extended regex is abstracted as a `String → Bool` matcher. -/
inductive SelExpr where
  | all
  | first
  | last
  | none
  | index (i : Nat)
  | range (a b : Nat)
  | preds (ps : List (String × (String → Bool)))

/-- Modelled from the spec: an entity passes a predicate list iff for every
`key=pattern` pair the entity's metadata holds the key and the stored value
matches the pattern; entities lacking the key fail (are excluded). -/
def matchesPreds (ps : List (String × (String → Bool))) (e : Entity) : Bool :=
  ps.all fun kp =>
    match e.metadata.lookup kp.1 with
    | Option.some v => kp.2 v
    | Option.none => false

/-- Modelled from the spec: `Selector.select(expression, entities)` resolves
an expression to an ordered list of references into the entity collection;
`first`/`last` on an empty collection fail with an empty-selection error,
predicate selections keep exactly the matching entities in original order. -/
def select : SelExpr → List Entity → Except SelErr (List Entity)
  | SelExpr.all, es => Except.ok es
  | SelExpr.first, es =>
    match es with
    | [] => Except.error SelErr.emptySelection
    | e :: _ => Except.ok [e]
  | SelExpr.last, es =>
    match es.getLast? with
    | Option.none => Except.error SelErr.emptySelection
    | Option.some e => Except.ok [e]
  | SelExpr.none, _ => Except.ok []
  | SelExpr.index i, es => Except.ok ((es.drop i).take 1)
  | SelExpr.range a b, es => Except.ok ((es.drop a).take (b - a))
  | SelExpr.preds ps, es => Except.ok (es.filter (matchesPreds ps))

/-- The final element of a list is a one-element sublist of it. -/
theorem sublist_of_getLast? {α : Type} :
    ∀ (l : List α) (e : α), l.getLast? = Option.some e → [e].Sublist l
  | [], e, h => by simp at h
  | [a], e, h => by
    simp only [List.getLast?_singleton, Option.some.injEq] at h
    simp [h]
  | a :: b :: t, e, h => by
    rw [List.getLast?_cons_cons] at h
    exact (sublist_of_getLast? (b :: t) e h).cons a

/-- C6: whatever list of references `Selector.select` returns is a sublist
of the entity collection: every reference denotes an element of the
collection, no element is referenced more often than it occurs, and the
original relative order is preserved. -/
theorem C6_select_sublist (E : SelExpr) (C : List Entity) (l : List Entity)
    (h : select E C = Except.ok l) : l.Sublist C := by
  cases E with
  | all =>
    simp only [select, Except.ok.injEq] at h
    exact h ▸ List.Sublist.refl C
  | first =>
    cases C with
    | nil => simp [select] at h
    | cons e t =>
      simp only [select, Except.ok.injEq] at h
      subst h
      exact (List.nil_sublist t).cons₂ e
  | last =>
    cases hl : C.getLast? with
    | none => rw [select, hl] at h; cases h
    | some e =>
      rw [select, hl] at h
      cases h
      exact sublist_of_getLast? C e hl
  | none =>
    simp only [select, Except.ok.injEq] at h
    exact h ▸ List.nil_sublist C
  | index i =>
    simp only [select, Except.ok.injEq] at h
    exact h ▸ (List.take_sublist 1 (C.drop i)).trans (List.drop_sublist i C)
  | range a b =>
    simp only [select, Except.ok.injEq] at h
    exact h ▸ (List.take_sublist (b - a) (C.drop a)).trans (List.drop_sublist a C)
  | preds ps =>
    simp only [select, Except.ok.injEq] at h
    exact h ▸ List.filter_sublist C

/-- Witness for C6: selecting `last` from a two-entity collection returns a
sublist of it. -/
theorem C6_select_sublist_witness :
    ([⟨[("ROIName", "liver")]⟩] : List Entity).Sublist
      [⟨[("ROIName", "body")]⟩, ⟨[("ROIName", "liver")]⟩] :=
  C6_select_sublist SelExpr.last
    [⟨[("ROIName", "body")]⟩, ⟨[("ROIName", "liver")]⟩] [⟨[("ROIName", "liver")]⟩] rfl

/-- A 3D spatial position; coordinates are embedded as `ℚ`. -/
structure Vec3 where
  x : ℚ
  y : ℚ
  z : ℚ
deriving DecidableEq

/-- Squared Euclidean distance between two positions. -/
def distSq (p q : Vec3) : ℚ :=
  (p.x - q.x) ^ 2 + (p.y - q.y) ^ 2 + (p.z - q.z) ^ 2

/-- One spatially located sample of the selected channel: its physical
position and its intensity value. -/
structure Voxel where
  pos : Vec3
  val : ℝ

/-- One planar image of a collection as the comparator sees it: its offset
along the stacking axis, its in-plane voxel spacings, and its voxels. -/
structure ImgSlice where
  zpos : ℚ
  dRow : ℚ
  dCol : ℚ
  voxels : List Voxel

/-- An image collection, as consumed by the comparator. -/
abbrev ImageColl := List ImgSlice

/-- All voxels of a collection, in image order. -/
def collVoxels (c : ImageColl) : List Voxel :=
  (c.map ImgSlice.voxels).flatten

/-- Modelled from the spec: the rectilinear-grid validation performed once by
the `Compare_Images` compute functor (not present under `src/`) before any
voxel search: the per-axis spacing must be constant across all images —
consecutive slice offsets share one spacing and all slices share the same
in-plane spacings. -/
def isRectilinear (c : ImageColl) : Bool :=
  (match List.zipWith (fun a b => b - a) (c.map ImgSlice.zpos) (c.map ImgSlice.zpos).tail with
   | [] => true
   | d :: ds => ds.all fun e => decide (e = d))
  && (match c with
      | [] => true
      | s :: ss => ss.all fun t => decide (t.dRow = s.dRow) && decide (t.dCol = s.dCol))

/-- The user-data parameters of the comparison, named after
`ComputeCompareImagesUserData` as filled in by `ComparePixels.cc`
(lines 326-341). -/
structure CmpParams where
  inc_lower_threshold : ℚ
  inc_upper_threshold : ℚ
  ref_img_inc_lower_threshold : ℚ
  ref_img_inc_upper_threshold : ℚ
  DTA_vox_val_eq_abs : ℚ
  DTA_vox_val_eq_reldiff : ℚ
  DTA_max : ℚ
  gamma_DTA_threshold : ℚ
  gamma_Dis_reldiff_threshold : ℚ

/-- Modelled from the spec: relative difference in percent between two
intensities (symmetric form; `0` when both are zero, since real division by
zero is zero). -/
noncomputable def relDiffPct (a b : ℝ) : ℝ :=
  200 * |a - b| / (|a| + |b|)

/-- Modelled from the spec: the DTA search's value-closeness test — the
candidate value agrees with the test value within the absolute tolerance or
within the relative (percent) tolerance. -/
def valClose (P : CmpParams) (a b : ℝ) : Prop :=
  |a - b| ≤ (P.DTA_vox_val_eq_abs : ℝ) ∨ relDiffPct a b ≤ (P.DTA_vox_val_eq_reldiff : ℝ)

noncomputable instance (P : CmpParams) (a b : ℝ) : Decidable (valClose P a b) := by
  unfold valClose; infer_instance

/-- Modelled from the spec: the reference voxels examined by the DTA search
around position `p` — those passing the reference-side inclusive intensity
thresholds and lying within the `DTA_max` search radius. -/
noncomputable def refCandidates (P : CmpParams) (ref : ImageColl) (p : Vec3) : List Voxel :=
  (collVoxels ref).filter fun rv =>
    decide ((P.ref_img_inc_lower_threshold : ℝ) ≤ rv.val
            ∧ rv.val ≤ (P.ref_img_inc_upper_threshold : ℝ))
    && decide (distSq rv.pos p ≤ P.DTA_max ^ 2)

/-- Modelled from the spec: the candidates whose value matches the test
voxel's value within tolerance. -/
noncomputable def matchingRefs (P : CmpParams) (ref : ImageColl) (tv : Voxel) : List Voxel :=
  (refCandidates P ref tv.pos).filter fun rv => decide (valClose P tv.val rv.val)

/-- Modelled from the spec: the squared distance to the nearest matching
reference voxel, when one exists within the search radius (searching in
order of non-decreasing distance and stopping at the first match reports
the minimum distance among matches). -/
noncomputable def dtaSq? (P : CmpParams) (ref : ImageColl) (tv : Voxel) : Option ℚ :=
  ((matchingRefs P ref tv).map fun rv => distSq rv.pos tv.pos).min?

/-- Modelled from the spec: the measured distance-to-agreement — the
distance to the nearest matching reference voxel, or `DTA_max` ("no match")
when no matching voxel exists within the search radius. -/
noncomputable def dtaAt (P : CmpParams) (ref : ImageColl) (tv : Voxel) : ℝ :=
  match dtaSq? P ref tv with
  | Option.some d => Real.sqrt (d : ℝ)
  | Option.none => (P.DTA_max : ℝ)

/-- The reference intensity found by direct lookup at a physical position
(no interpolation). -/
def refValAt (ref : ImageColl) (p : Vec3) : Option ℝ :=
  ((collVoxels ref).find? fun rv => decide (rv.pos = p)).map Voxel.val

/-- Modelled from the spec: the discrepancy metric — the value difference
between the test voxel and the reference voxel at the same physical
coordinate, by direct lookup. -/
def discrepancyAt (ref : ImageColl) (tv : Voxel) : ℝ :=
  match refValAt ref tv.pos with
  | Option.some r => tv.val - r
  | Option.none => 0

/-- Modelled from the spec: the relative (percent) discrepancy entering the
gamma index. -/
noncomputable def gammaDiscAt (ref : ImageColl) (tv : Voxel) : ℝ :=
  match refValAt ref tv.pos with
  | Option.some r => relDiffPct tv.val r
  | Option.none => 0

/-- Modelled from the spec: the squared gamma index,
`(DTA / DTA_threshold)² + (discrepancy / discrepancy_threshold)²`. -/
noncomputable def gammaSqAt (P : CmpParams) (ref : ImageColl) (tv : Voxel) : ℝ :=
  (match dtaSq? P ref tv with
   | Option.some d => (d : ℝ)
   | Option.none => (P.DTA_max : ℝ) ^ 2) / (P.gamma_DTA_threshold : ℝ) ^ 2
  + (gammaDiscAt ref tv / (P.gamma_Dis_reldiff_threshold : ℝ)) ^ 2

/-- The sentinel reported instead of the true gamma when the early
termination fires: the value slightly above one,
`std::nextafter(1.0, inf) = 1 + 2⁻⁵²`. -/
noncomputable def gammaEarlySentinel : ℝ := 1 + 1 / 2 ^ 52

/-- Modelled from the spec: the gamma index written for a voxel.  With the
early-termination option enabled the search halts as soon as the gamma
index is known to exceed one and the sentinel is reported; otherwise the
true `sqrt` of the squared gamma is reported. -/
noncomputable def gammaAt (terminate : Bool) (P : CmpParams) (ref : ImageColl) (tv : Voxel) : ℝ :=
  if terminate = true ∧ 1 < gammaSqAt P ref tv then gammaEarlySentinel
  else Real.sqrt (gammaSqAt P ref tv)

/-- The three comparison methods of `ComparePixels.cc`. -/
inductive Method where
  | discrepancy
  | dta
  | gammaIndex

/-- The metric value computed for a test voxel under the chosen method. -/
noncomputable def metricAt (m : Method) (terminate : Bool) (P : CmpParams)
    (ref : ImageColl) (tv : Voxel) : ℝ :=
  match m with
  | Method.discrepancy => discrepancyAt ref tv
  | Method.dta => dtaAt P ref tv
  | Method.gammaIndex => gammaAt terminate P ref tv

/-- A test voxel is altered iff it lies inside the supplied ROI masks and
passes the test-side inclusive intensity thresholds. -/
def eligibleVoxel (P : CmpParams) (roi : Vec3 → Bool) (tv : Voxel) : Prop :=
  roi tv.pos = true
  ∧ (P.inc_lower_threshold : ℝ) ≤ tv.val ∧ tv.val ≤ (P.inc_upper_threshold : ℝ)

noncomputable instance (P : CmpParams) (roi : Vec3 → Bool) (tv : Voxel) :
    Decidable (eligibleVoxel P roi tv) := by
  unfold eligibleVoxel; infer_instance

/-- The value stored back into a test voxel: the computed metric when the
voxel is eligible, the original value otherwise. -/
noncomputable def writtenVal (m : Method) (terminate : Bool) (P : CmpParams)
    (roi : Vec3 → Bool) (ref : ImageColl) (tv : Voxel) : ℝ :=
  if eligibleVoxel P roi tv then metricAt m terminate P ref tv else tv.val

/-- The dedicated comparator failure. -/
inductive CmpErr where
  | nonRectilinearGrid
deriving DecidableEq

/-- Modelled from the spec: the `Compare_Images` compute functor
(`ComputeCompareImages`, not present under `src/`): the reference grid is
validated once before any voxel work; on success every eligible test voxel
is overwritten with its metric and all other voxels are left unchanged. -/
noncomputable def ComputeCompareImages (m : Method) (terminate : Bool) (P : CmpParams)
    (roi : Vec3 → Bool) (ref test : ImageColl) : Except CmpErr ImageColl :=
  if isRectilinear ref = true then
    Except.ok (test.map fun s =>
      { s with voxels := s.voxels.map fun tv =>
          { tv with val := writtenVal m terminate P roi ref tv } })
  else Except.error CmpErr.nonRectilinearGrid

/-- A contour collection: its ROI name (the metadata the whitelists match)
and its polygon-membership test, abstracted as a position predicate. -/
structure ContourColl where
  ROIName : String
  contains : Vec3 → Bool

/-- An image array of the state container: the metadata the selection
whitelists match (abstracted as one tag string) and its image collection. -/
structure ImageArray where
  tag : String
  imagecoll : ImageColl

/-- The state container (`Drover`): image arrays and contour collections. -/
structure Drover where
  image_data : List ImageArray
  contour_data : List ContourColl

/-- The ROI mask assembled from the selected contour collections: a position
is inside iff some selected contour collection contains it. -/
def inROIOf (ccs : List ContourColl) : Vec3 → Bool :=
  fun p => ccs.any fun c => c.contains p

/-- Placeholder image array used for out-of-range index reads. -/
def emptyArray : ImageArray := { tag := "", imagecoll := [] }

/-- The reference image collection the comparison loop reads: the collection
of the first (and, after validation, only) image array matched by the
reference selection, re-read from the current state on every iteration
(`RIARL` holds a live reference into `DICOM_data`). -/
def refCollOf (refSel : String → Bool) (d : Drover) : ImageColl :=
  ((d.image_data.find? fun ia => refSel ia.tag).map ImageArray.imagecoll).getD []

/-- The indices of the image arrays matched by the test-image selection, in
state order (`IAs = Whitelist(IAs_all, ImageSelectionStr)`); selection looks
only at metadata, which voxel mutation never changes. -/
def selIdx (testSel : String → Bool) (d : Drover) : List Nat :=
  (List.range d.image_data.length).filter fun i =>
    testSel (d.image_data.getD i emptyArray).tag

/-- The loop of `ComparePixels.cc` lines 311-348: each selected test array is
compared against the reference collection and overwritten with the result;
a failing comparison throws `"Unable to compare images."` and stops. -/
noncomputable def cpLoop (refSel : String → Bool) (m : Method) (terminate : Bool)
    (P : CmpParams) (roi : Vec3 → Bool) : List Nat → Drover → Drover × Option String
  | [], d => (d, Option.none)
  | i :: rest, d =>
    let ia := d.image_data.getD i emptyArray
    match ComputeCompareImages m terminate P roi (refCollOf refSel d) ia.imagecoll with
    | Except.error _ => (d, Option.some ("Unable to compare images."))
    | Except.ok nc =>
      cpLoop refSel m terminate P roi rest
        { d with image_data := d.image_data.set i { ia with imagecoll := nc } }

/-- The `ComparePixels` operation (`ComparePixels.cc` lines 257-351): the
contour whitelist must select at least one contour collection and the
reference whitelist exactly one image array, both validated before any
voxel work; then every selected test array is compared and overwritten.
The result pairs the final state with the raised error, if any. -/
noncomputable def ComparePixels (roiSel refSel testSel : String → Bool) (m : Method)
    (terminate : Bool) (P : CmpParams) (d : Drover) : Drover × Option String :=
  let cc_ROIs := d.contour_data.filter fun c => roiSel c.ROIName
  if cc_ROIs.isEmpty = true then
    (d, Option.some ("No contours selected. Cannot continue."))
  else
    let RIAs := d.image_data.filter fun ia => refSel ia.tag
    if RIAs.length ≠ 1 then
      (d, Option.some ("Only one reference image collection can be specified."))
    else
      cpLoop refSel m terminate P (inROIOf cc_ROIs) (selIdx testSel d) d

/-- Comparison parameters used by the concrete examples below: finite
stand-ins for the unbounded default thresholds, and the documented defaults
for the DTA and gamma parameters. -/
def sampleParams : CmpParams :=
  { inc_lower_threshold := -1000
    inc_upper_threshold := 1000
    ref_img_inc_lower_threshold := -1000
    ref_img_inc_upper_threshold := 1000
    DTA_vox_val_eq_abs := 1 / 1000
    DTA_vox_val_eq_reldiff := 1
    DTA_max := 30
    gamma_DTA_threshold := 5
    gamma_Dis_reldiff_threshold := 5 }

/-- C10: `ComparePixels` validates its selections before any voxel work:
whenever the contour whitelist selects no contour collection, or the
reference whitelist resolves to a number of image arrays different from
one, it raises an invalid-argument error and the state container is
returned unchanged. -/
theorem C10_invalid_selection_unchanged (roiSel refSel testSel : String → Bool)
    (m : Method) (terminate : Bool) (P : CmpParams) (d : Drover)
    (h : (d.contour_data.filter fun c => roiSel c.ROIName) = []
         ∨ (d.image_data.filter fun ia => refSel ia.tag).length ≠ 1) :
    (ComparePixels roiSel refSel testSel m terminate P d).1 = d
    ∧ (ComparePixels roiSel refSel testSel m terminate P d).2.isSome = true := by
  rw [ComparePixels]
  by_cases hcc : (d.contour_data.filter fun c => roiSel c.ROIName).isEmpty = true
  · simp [hcc]
  · have hne : ¬ (d.contour_data.filter fun c => roiSel c.ROIName) = [] := by
      intro hnil
      exact hcc (by simp [hnil])
    have hlen : (d.image_data.filter fun ia => refSel ia.tag).length ≠ 1 := h.resolve_left hne
    simp [hcc, hlen]

/-- Witness for C10: a state container with no contour collections is
returned unchanged together with an error. -/
theorem C10_invalid_selection_unchanged_witness :
    (ComparePixels (fun _ => true) (fun _ => true) (fun _ => true) Method.gammaIndex true
        sampleParams { image_data := [], contour_data := [] }).1
      = { image_data := [], contour_data := [] }
    ∧ (ComparePixels (fun _ => true) (fun _ => true) (fun _ => true) Method.gammaIndex true
        sampleParams { image_data := [], contour_data := [] }).2.isSome = true :=
  C10_invalid_selection_unchanged (fun _ => true) (fun _ => true) (fun _ => true)
    Method.gammaIndex true sampleParams { image_data := [], contour_data := [] }
    (Or.inl rfl)

/-- While the reference collection read from the current state is not
rectilinear, the comparison loop fails on its first selected test array (or
runs no comparison at all) and leaves the state unchanged. -/
theorem cpLoop_nonrect_unchanged (refSel : String → Bool) (m : Method) (terminate : Bool)
    (P : CmpParams) (roi : Vec3 → Bool) (idxs : List Nat) (d : Drover)
    (hd : isRectilinear (refCollOf refSel d) = false) :
    (cpLoop refSel m terminate P roi idxs d).1 = d := by
  cases idxs with
  | nil => rfl
  | cons i rest =>
    rw [cpLoop]
    have : ComputeCompareImages m terminate P roi (refCollOf refSel d)
        (d.image_data.getD i emptyArray).imagecoll = Except.error CmpErr.nonRectilinearGrid := by
      rw [ComputeCompareImages, if_neg]
      rw [hd]
      simp
    rw [this]

/-- C3: a non-rectilinear reference collection aborts the comparison before
any voxel search — the compute functor fails immediately with the dedicated
`NonRectilinearGridError` — and at the operation level no test voxel is
modified: the state container comes back exactly as it went in. -/
theorem C3_nonrectilinear_aborts (m : Method) (terminate : Bool) (P : CmpParams)
    (roi : Vec3 → Bool) (ref test : ImageColl)
    (roiSel refSel testSel : String → Bool) (d : Drover)
    (href : isRectilinear ref = false)
    (hd : isRectilinear (refCollOf refSel d) = false) :
    ComputeCompareImages m terminate P roi ref test = Except.error CmpErr.nonRectilinearGrid
    ∧ (ComparePixels roiSel refSel testSel m terminate P d).1 = d := by
  constructor
  · rw [ComputeCompareImages, if_neg]
    rw [href]
    simp
  · rw [ComparePixels]
    by_cases hcc : (d.contour_data.filter fun c => roiSel c.ROIName).isEmpty = true
    · simp [hcc]
    · simp only [hcc, if_false, Bool.false_eq_true]
      by_cases hlen : (d.image_data.filter fun ia => refSel ia.tag).length ≠ 1
      · simp [hlen]
      · simp only [hlen, if_false]
        exact cpLoop_nonrect_unchanged refSel m terminate P
          (inROIOf (d.contour_data.filter fun c => roiSel c.ROIName)) (selIdx testSel d) d hd

/-- A reference collection with irregular slice spacing (offsets 0, 1, 3). -/
def irregularColl : ImageColl :=
  [{ zpos := 0, dRow := 1, dCol := 1, voxels := [] },
   { zpos := 1, dRow := 1, dCol := 1, voxels := [] },
   { zpos := 3, dRow := 1, dCol := 1, voxels := [] }]

/-- Witness for C3: the comparison of any test collection against the
irregularly spaced reference collection fails with the dedicated error, and
the operation leaves a state container holding that reference unchanged. -/
theorem C3_nonrectilinear_aborts_witness :
    ComputeCompareImages Method.gammaIndex true sampleParams (fun _ => true) irregularColl []
      = Except.error CmpErr.nonRectilinearGrid
    ∧ (ComparePixels (fun _ => true) (fun _ => true) (fun _ => true) Method.gammaIndex true
        sampleParams
        { image_data := [{ tag := "ref", imagecoll := irregularColl }],
          contour_data := [{ ROIName := "body", contains := fun _ => true }] }).1
      = { image_data := [{ tag := "ref", imagecoll := irregularColl }],
          contour_data := [{ ROIName := "body", contains := fun _ => true }] } :=
  C3_nonrectilinear_aborts Method.gammaIndex true sampleParams (fun _ => true) irregularColl []
    (fun _ => true) (fun _ => true) (fun _ => true)
    { image_data := [{ tag := "ref", imagecoll := irregularColl }],
      contour_data := [{ ROIName := "body", contains := fun _ => true }] }
    (by norm_num [isRectilinear, irregularColl])
    (by norm_num [isRectilinear, irregularColl, refCollOf, List.find?])

/-- The comparison loop never touches the contour data. -/
theorem cpLoop_contour_unchanged (refSel : String → Bool) (m : Method) (terminate : Bool)
    (P : CmpParams) (roi : Vec3 → Bool) :
    ∀ (idxs : List Nat) (d : Drover),
      (cpLoop refSel m terminate P roi idxs d).1.contour_data = d.contour_data
  | [], _ => rfl
  | i :: rest, d => by
    rw [cpLoop]
    cases ComputeCompareImages m terminate P roi (refCollOf refSel d)
        (d.image_data.getD i emptyArray).imagecoll with
    | error e => rfl
    | ok nc =>
      exact cpLoop_contour_unchanged refSel m terminate P roi rest _

/-- The comparison loop only writes at the task indices: any image-array
position outside the index list is left unchanged. -/
theorem cpLoop_frame (refSel : String → Bool) (m : Method) (terminate : Bool)
    (P : CmpParams) (roi : Vec3 → Bool) :
    ∀ (idxs : List Nat) (d : Drover) (j : Nat), j ∉ idxs →
      (cpLoop refSel m terminate P roi idxs d).1.image_data[j]? = d.image_data[j]?
  | [], _, _, _ => rfl
  | i :: rest, d, j, hj => by
    have hji : i ≠ j := fun h => hj (h ▸ List.mem_cons_self i rest)
    have hjr : j ∉ rest := fun h => hj (List.mem_cons_of_mem i h)
    rw [cpLoop]
    cases ComputeCompareImages m terminate P roi (refCollOf refSel d)
        (d.image_data.getD i emptyArray).imagecoll with
    | error e => rfl
    | ok nc =>
      rw [cpLoop_frame refSel m terminate P roi rest _ j hjr]
      exact List.getElem?_set_ne hji

/-- C7 (amended): on every `ComparePixels` run only the image arrays matched
by the test-image selection are mutated: the contour data is unchanged and
every image array whose tag the test selection does not match — in
particular the reference collection whenever it is not also selected as a
test collection — is left bit-for-bit unchanged. -/
theorem C7_only_selected_mutated (roiSel refSel testSel : String → Bool) (m : Method)
    (terminate : Bool) (P : CmpParams) (d : Drover) :
    ((ComparePixels roiSel refSel testSel m terminate P d).1.contour_data = d.contour_data)
    ∧ ∀ j : Nat, testSel ((d.image_data.getD j emptyArray).tag) = false →
        (ComparePixels roiSel refSel testSel m terminate P d).1.image_data[j]?
          = d.image_data[j]? := by
  rw [ComparePixels]
  by_cases hcc : (d.contour_data.filter fun c => roiSel c.ROIName).isEmpty = true
  · simp [hcc]
  · simp only [hcc, if_false, Bool.false_eq_true]
    by_cases hlen : (d.image_data.filter fun ia => refSel ia.tag).length ≠ 1
    · simp [hlen]
    · simp only [hlen, if_false]
      constructor
      · exact cpLoop_contour_unchanged refSel m terminate P _ (selIdx testSel d) d
      · intro j hj
        apply cpLoop_frame
        intro hmem
        rw [selIdx, List.mem_filter] at hmem
        rw [hj] at hmem
        exact Bool.false_ne_true hmem.2

/-- Witness for C7 (amended): with a test selection matching nothing, the
single (reference) image array survives a run untouched. -/
theorem C7_only_selected_mutated_witness :
    (ComparePixels (fun _ => true) (fun _ => true) (fun _ => false) Method.discrepancy false
        sampleParams
        { image_data := [{ tag := "ref", imagecoll := [] }],
          contour_data := [{ ROIName := "body", contains := fun _ => true }] }).1.image_data[0]?
      = ({ image_data := [{ tag := "ref", imagecoll := [] }],
           contour_data := [{ ROIName := "body", contains := fun _ => true }] }
          : Drover).image_data[0]? :=
  (C7_only_selected_mutated (fun _ => true) (fun _ => true) (fun _ => false) Method.discrepancy
    false sampleParams
    { image_data := [{ tag := "ref", imagecoll := [] }],
      contour_data := [{ ROIName := "body", contains := fun _ => true }] }).2 0 rfl

/-- An image collection holding one voxel of value 5 at the origin. -/
def olColl : ImageColl :=
  [{ zpos := 0, dRow := 1, dCol := 1, voxels := [{ pos := ⟨0, 0, 0⟩, val := 5 }] }]

/-- A state container with a single image array that is matched by both the
default (`all`) test-image selection and the default reference selection,
plus one everywhere-true contour collection. -/
def olDrover : Drover :=
  { image_data := [{ tag := "A", imagecoll := olColl }],
    contour_data := [{ ROIName := "c", contains := fun _ => true }] }

/-- Counterexample to C7 as stated: when the single image array is selected
both as test image and as reference (`ImageSelection = all`,
`ReferenceImageSelection = all` on a one-array store), the discrepancy run
succeeds — yet the reference collection is overwritten (its voxel value
changes from 5 to the discrepancy 0), so a successful run does not leave
every image of the reference collection bit-for-bit unchanged. -/
theorem C7_reference_overwritten_counterexample :
    (ComparePixels (fun _ => true) (fun _ => true) (fun _ => true) Method.discrepancy false
        sampleParams olDrover).2 = Option.none
    ∧ refCollOf (fun _ => true)
        (ComparePixels (fun _ => true) (fun _ => true) (fun _ => true) Method.discrepancy false
          sampleParams olDrover).1
      ≠ refCollOf (fun _ => true) olDrover := by
  have hrect : isRectilinear
      [{ zpos := 0, dRow := 1, dCol := 1, voxels := [{ pos := ⟨0, 0, 0⟩, val := 5 }] }]
      = true := rfl
  have helig : eligibleVoxel sampleParams (inROIOf [{ ROIName := "c", contains := fun _ => true }])
      { pos := ⟨0, 0, 0⟩, val := 5 } := by
    refine ⟨rfl, ?_, ?_⟩ <;> norm_num [sampleParams]
  have hwv : writtenVal Method.discrepancy false sampleParams
      (inROIOf [{ ROIName := "c", contains := fun _ => true }])
      [{ zpos := 0, dRow := 1, dCol := 1, voxels := [{ pos := ⟨0, 0, 0⟩, val := 5 }] }]
      { pos := ⟨0, 0, 0⟩, val := 5 } = 0 := by
    rw [writtenVal, if_pos helig]
    show discrepancyAt
      [{ zpos := 0, dRow := 1, dCol := 1, voxels := [{ pos := ⟨0, 0, 0⟩, val := 5 }] }]
      { pos := ⟨0, 0, 0⟩, val := 5 } = 0
    rw [discrepancyAt]
    have hrv : refValAt
        [{ zpos := 0, dRow := 1, dCol := 1, voxels := [{ pos := ⟨0, 0, 0⟩, val := 5 }] }]
        ⟨0, 0, 0⟩ = Option.some 5 := rfl
    norm_num [hrv]
  have hrun : ComparePixels (fun _ => true) (fun _ => true) (fun _ => true) Method.discrepancy
      false sampleParams olDrover
      = ({ image_data := [{ tag := "A", imagecoll :=
              [{ zpos := 0, dRow := 1, dCol := 1,
                 voxels := [{ pos := ⟨0, 0, 0⟩, val := 0 }] }] }],
           contour_data := [{ ROIName := "c", contains := fun _ => true }] },
         Option.none) := by
    simp [ComparePixels, cpLoop, selIdx, olDrover, olColl, refCollOf, emptyArray,
      ComputeCompareImages, List.filter, List.find?, hwv, hrect]
  rw [hrun]
  refine ⟨rfl, ?_⟩
  intro h
  simp [refCollOf, olDrover, olColl, List.find?, ImgSlice.mk.injEq, Voxel.mk.injEq] at h

/-- A position is at squared distance zero from itself. -/
theorem distSq_self (p : Vec3) : distSq p p = 0 := by
  simp [distSq]

/-- Squared distances are nonnegative. -/
theorem distSq_nonneg (p q : Vec3) : 0 ≤ distSq p q := by
  unfold distSq
  positivity

/-- C1: against a reference collection identical to the test collection (the
test voxel is itself a reference voxel and positions determine values), an
in-ROI test voxel passing the test-side and reference-side inclusive
intensity thresholds receives 0 under the discrepancy method, 0 under the
DTA method and 0 under the gamma-index method (in either early-termination
mode), the DTA value tolerance being nonnegative. -/
theorem C1_identical_reference_zero (terminate : Bool) (P : CmpParams) (roi : Vec3 → Bool)
    (ref : ImageColl) (tv : Voxel)
    (hmem : tv ∈ collVoxels ref)
    (hwf : ∀ rv ∈ collVoxels ref, rv.pos = tv.pos → rv.val = tv.val)
    (helig : eligibleVoxel P roi tv)
    (habs : 0 ≤ P.DTA_vox_val_eq_abs)
    (hrlo : (P.ref_img_inc_lower_threshold : ℝ) ≤ tv.val)
    (hrhi : tv.val ≤ (P.ref_img_inc_upper_threshold : ℝ)) :
    writtenVal Method.discrepancy terminate P roi ref tv = 0
    ∧ writtenVal Method.dta terminate P roi ref tv = 0
    ∧ writtenVal Method.gammaIndex terminate P roi ref tv = 0 := by
  have hlook : refValAt ref tv.pos = Option.some tv.val := by
    rcases hfind : (collVoxels ref).find? (fun rv => decide (rv.pos = tv.pos)) with _ | rv
    · exfalso
      have := List.find?_eq_none.mp hfind tv hmem
      simp at this
    · have hp : rv.pos = tv.pos := by
        have := List.find?_some hfind
        simpa using this
      have hmm := List.mem_of_find?_eq_some hfind
      rw [refValAt, hfind]
      simp [hwf rv hmm hp]
  have hdisc : discrepancyAt ref tv = 0 := by
    rw [discrepancyAt, hlook]
    simp
  have hgdisc : gammaDiscAt ref tv = 0 := by
    rw [gammaDiscAt, hlook]
    simp [relDiffPct]
  have hcand : tv ∈ refCandidates P ref tv.pos := by
    rw [refCandidates, List.mem_filter]
    refine ⟨hmem, ?_⟩
    simp only [Bool.and_eq_true, decide_eq_true_eq]
    refine ⟨⟨hrlo, hrhi⟩, ?_⟩
    rw [distSq_self]
    positivity
  have hmatch : tv ∈ matchingRefs P ref tv := by
    rw [matchingRefs, List.mem_filter]
    refine ⟨hcand, ?_⟩
    simp only [decide_eq_true_eq]
    left
    rw [sub_self, abs_zero]
    exact_mod_cast habs
  have hmin : dtaSq? P ref tv = Option.some 0 := by
    rw [dtaSq?]
    haveI : Std.Antisymm ((· ≤ ·) : ℚ → ℚ → Prop) := ⟨fun h h2 => le_antisymm h h2⟩
    apply (List.min?_eq_some_iff (fun a => le_refl a) (fun a b => min_choice a b)
      (fun a b c => le_min_iff)).mpr
    constructor
    · exact List.mem_map.mpr ⟨tv, hmatch, distSq_self tv.pos⟩
    · intro b hb
      obtain ⟨rv, _, hrb⟩ := List.mem_map.mp hb
      rw [← hrb]
      exact distSq_nonneg rv.pos tv.pos
  have hdta : dtaAt P ref tv = 0 := by
    rw [dtaAt, hmin]
    simp
  have hgsq : gammaSqAt P ref tv = 0 := by
    rw [gammaSqAt, hmin, hgdisc]
    simp
  have hg : gammaAt terminate P ref tv = 0 := by
    rw [gammaAt, hgsq]
    rw [if_neg]
    · simp
    · rintro ⟨_, hlt⟩
      norm_num at hlt
  refine ⟨?_, ?_, ?_⟩ <;> rw [writtenVal, if_pos helig]
  · exact hdisc
  · exact hdta
  · exact hg

/-- Witness for C1: the single-voxel collection compared against itself
yields 0 under all three methods. -/
theorem C1_identical_reference_zero_witness :
    writtenVal Method.discrepancy true sampleParams (fun _ => true) olColl
        { pos := ⟨0, 0, 0⟩, val := 5 } = 0
    ∧ writtenVal Method.dta true sampleParams (fun _ => true) olColl
        { pos := ⟨0, 0, 0⟩, val := 5 } = 0
    ∧ writtenVal Method.gammaIndex true sampleParams (fun _ => true) olColl
        { pos := ⟨0, 0, 0⟩, val := 5 } = 0 :=
  C1_identical_reference_zero true sampleParams (fun _ => true) olColl
    { pos := ⟨0, 0, 0⟩, val := 5 }
    (by simp [collVoxels, olColl])
    (by
      intro rv hrv hp
      simp [collVoxels, olColl] at hrv
      rw [hrv])
    ⟨rfl, by norm_num [sampleParams], by norm_num [sampleParams]⟩
    (by norm_num [sampleParams])
    (by norm_num [sampleParams])
    (by norm_num [sampleParams])

/-- C2: an in-ROI test voxel whose value has no matching reference voxel
within the `DTA_max` search radius and whose measured relative discrepancy
exceeds the (positive) gamma discrepancy threshold receives a gamma index
strictly greater than 1 with early termination disabled, and also strictly
greater than 1 (the sentinel) with early termination enabled: the two modes
may differ in the magnitude reported above 1, never in crossing 1. -/
theorem C2_gamma_exceeds_one (P : CmpParams) (roi : Vec3 → Bool) (ref : ImageColl) (tv : Voxel)
    (helig : eligibleVoxel P roi tv)
    (hnomatch : matchingRefs P ref tv = [])
    (htau : 0 < P.gamma_Dis_reldiff_threshold)
    (hdisc : (P.gamma_Dis_reldiff_threshold : ℝ) < gammaDiscAt ref tv) :
    1 < writtenVal Method.gammaIndex false P roi ref tv
    ∧ 1 < writtenVal Method.gammaIndex true P roi ref tv := by
  have hdtanone : dtaSq? P ref tv = Option.none := by
    rw [dtaSq?, hnomatch]
    rfl
  have hgsq : 1 < gammaSqAt P ref tv := by
    rw [gammaSqAt, hdtanone]
    have h1 : (0:ℝ) ≤ ((P.DTA_max : ℝ))^2 / ((P.gamma_DTA_threshold : ℝ))^2 := by positivity
    have htau' : (0:ℝ) < (P.gamma_Dis_reldiff_threshold : ℝ) := by exact_mod_cast htau
    have h2 : 1 < gammaDiscAt ref tv / (P.gamma_Dis_reldiff_threshold : ℝ) :=
      (one_lt_div htau').mpr hdisc
    have h3 : 1 < (gammaDiscAt ref tv / (P.gamma_Dis_reldiff_threshold : ℝ))^2 := by
      nlinarith
    linarith
  constructor
  · rw [writtenVal, if_pos helig]
    show 1 < gammaAt false P ref tv
    rw [gammaAt, if_neg (by simp)]
    exact (Real.lt_sqrt (by norm_num)).mpr (by rwa [one_pow])
  · rw [writtenVal, if_pos helig]
    show 1 < gammaAt true P ref tv
    rw [gammaAt, if_pos ⟨rfl, hgsq⟩]
    norm_num [gammaEarlySentinel]

/-- A reference collection holding one voxel of value 0 at the origin, a
value far from the test value 10 used below. -/
def c2Ref : ImageColl :=
  [{ zpos := 0, dRow := 1, dCol := 1, voxels := [{ pos := ⟨0, 0, 0⟩, val := 0 }] }]

/-- Witness for C2: the test voxel of value 10 has no value-matching
reference voxel and a 200% discrepancy; gamma exceeds 1 in both modes. -/
theorem C2_gamma_exceeds_one_witness :
    1 < writtenVal Method.gammaIndex false sampleParams (fun _ => true) c2Ref
        { pos := ⟨0, 0, 0⟩, val := 10 }
    ∧ 1 < writtenVal Method.gammaIndex true sampleParams (fun _ => true) c2Ref
        { pos := ⟨0, 0, 0⟩, val := 10 } :=
  C2_gamma_exceeds_one sampleParams (fun _ => true) c2Ref { pos := ⟨0, 0, 0⟩, val := 10 }
    ⟨rfl, by norm_num [sampleParams], by norm_num [sampleParams]⟩
    (by
      rw [matchingRefs]
      apply List.filter_eq_nil_iff.mpr
      intro rv hrv
      have hrv' : rv ∈ collVoxels c2Ref := List.mem_of_mem_filter hrv
      simp [collVoxels, c2Ref] at hrv'
      rw [hrv']
      simp only [decide_eq_true_eq]
      norm_num [valClose, relDiffPct, sampleParams, abs_of_nonneg])
    (by norm_num [sampleParams])
    (by
      have hrv : refValAt c2Ref ⟨0, 0, 0⟩ = Option.some 0 := rfl
      rw [gammaDiscAt]
      show (sampleParams.gamma_Dis_reldiff_threshold : ℝ) < _
      rw [hrv]
      norm_num [relDiffPct, sampleParams, abs_of_nonneg])
